import Mathlib

/-!
Shallow embedding of the bilibili-banner interaction core
(`src/core/BannerEngine.ts` and `src/core/ParticleSystem.ts`).

Numbers are modelled as rationals (the source does exact JS arithmetic on
the values the claims are about; no rounding is involved in the claims).
The constant `DEG2RAD = 180 / Math.PI` is irrational, so the engine
functions take it as an abstract parameter `deg2rad`: every statement below
holds for an arbitrary value of that constant.

CSS `transform` strings are modelled structurally: a transform list
`base matrix(...) rotate(...)` is a `FinalTransform` record holding the
base matrix, the scale/translate matrix and the optional rotation angle,
in composition order.
-/

/-- A CSS `matrix(a, b, c, d, tx, ty)` affine transform. -/
structure Mat where
  a : ℚ
  b : ℚ
  c : ℚ
  d : ℚ
  tx : ℚ
  ty : ℚ
deriving DecidableEq, Repr

/-- Composition of CSS matrices: `m1.mul m2` is the matrix of the
transform list `matrix(m1) matrix(m2)` (m2 applied first to points). -/
def Mat.mul (m1 m2 : Mat) : Mat :=
  { a := m1.a * m2.a + m1.c * m2.b
    b := m1.b * m2.a + m1.d * m2.b
    c := m1.a * m2.c + m1.c * m2.d
    d := m1.b * m2.c + m1.d * m2.d
    tx := m1.a * m2.tx + m1.c * m2.ty + m1.tx
    ty := m1.b * m2.tx + m1.d * m2.ty + m1.ty }

/-- A raw parallax layer descriptor (`ParallaxLayer` in `BannerEngine.ts`):
authored transform `[a,b,c,d,tx,ty]`, parallax coefficient `a`, optional
gravity `g`, scale coefficient `f`, rotation coefficient `deg`, and
opacity range. -/
structure RawLayer where
  transform : Mat
  a : ℚ
  g : Option ℚ
  f : Option ℚ
  deg : Option ℚ
  opacity : Option (ℚ × ℚ)
deriving DecidableEq, Repr

/-- A layer after `_initParallaxData`: the raw fields plus the
precomputed `_baseTransform` (translation scaled by the compensation
factor), `_aCompensated = item.a` and `_gCompensated = item.g || 0`. -/
structure ProcessedLayer where
  transform : Mat
  a : ℚ
  g : Option ℚ
  f : Option ℚ
  deg : Option ℚ
  opacity : Option (ℚ × ℚ)
  baseTransform : Mat
  aCompensated : ℚ
  gCompensated : ℚ
deriving DecidableEq, Repr

/-- `_calcCompensate`: `window.innerWidth > baseWidth ?
window.innerWidth / baseWidth : 1`. -/
def calcCompensate (innerWidth baseWidth : ℚ) : ℚ :=
  if innerWidth > baseWidth then innerWidth / baseWidth else 1

/-- One layer of `_initParallaxData`: copy the authored transform, scale
its two translation components by the compensation factor, and snapshot
the physics coefficients (`_aCompensated = item.a`,
`_gCompensated = item.g || 0`). -/
def initLayer (compensate : ℚ) (item : RawLayer) : ProcessedLayer :=
  { transform := item.transform
    a := item.a
    g := item.g
    f := item.f
    deg := item.deg
    opacity := item.opacity
    baseTransform :=
      { item.transform with
        tx := item.transform.tx * compensate
        ty := item.transform.ty * compensate }
    aCompensated := item.a
    gCompensated := item.g.getD 0 }

/-- `_lerp(start, end, amt) = (1 - amt) * start + amt * end`. -/
def lerp (start stop amt : ℚ) : ℚ :=
  (1 - amt) * start + amt * stop

/-- `_easeOutQuart(x) = 1 - (1 - x) ** 4`. -/
def easeOutQuart (x : ℚ) : ℚ :=
  1 - (1 - x) ^ (4 : ℕ)

/-- The transform string written by `_animate` for one layer:
`${_baseTransform} matrix(s, 0, 0, s, move, g)` plus, when `item.deg` is
truthy, ` rotate(${currentDeg * DEG2RAD}deg)`. -/
structure FinalTransform where
  base : Mat
  scaleMove : Mat
  rot : Option ℚ
deriving DecidableEq, Repr

/-- The `currentMoveX` of `_animate`: the live `moveX` while tracking,
`_lerp(moveX, 0, progress)` during homing. -/
def effectiveOffset (moveX : ℚ) : Option ℚ → ℚ
  | some p => lerp moveX 0 p
  | none => moveX

/-- The per-layer body of `_animate` (transform part).
`progress = none` is live tracking (`_animate()` with no argument);
`progress = some p` is a homing frame (`_animate(easeProgress)`).
`deg2rad` stands for the constant `BannerEngine.DEG2RAD = 180 / Math.PI`.
JS truthiness of `item.f` and `item.deg` (zero is falsy) is modelled
explicitly; `item._aCompensated || 0` is the identity on a present
numeric field and is therefore written as the field itself. -/
def animateLayerTransform (deg2rad : ℚ) (moveX : ℚ) (progress : Option ℚ)
    (item : ProcessedLayer) : FinalTransform :=
  let currentMoveX : ℚ := effectiveOffset moveX progress
  let move := currentMoveX * item.aCompensated
  let s : ℚ :=
    match item.f with
    | some fv => if fv = 0 then 1 else fv * currentMoveX + 1
    | none => 1
  let g := currentMoveX * item.gCompensated
  let rot : Option ℚ :=
    match item.deg with
    | some dv =>
      if dv = 0 then none
      else
        let currentDeg : ℚ :=
          match progress with
          | some p => lerp (dv * moveX) 0 p
          | none => dv * moveX
        some (currentDeg * deg2rad)
    | none => none
  { base := item.baseTransform
    scaleMove := { a := s, b := 0, c := 0, d := s, tx := move, ty := g }
    rot := rot }

/-- The per-layer opacity written by `_animate` (`none` when the layer has
no opacity range, so the style is left untouched):
`isHoming && moveX > 0 ? _lerp(op[1], op[0], progress)
 : _lerp(op[0], op[1], (moveX / window.innerWidth) * 2)`. -/
def animateLayerOpacity (innerWidth : ℚ) (moveX : ℚ) (progress : Option ℚ)
    (item : ProcessedLayer) : Option ℚ :=
  match item.opacity with
  | none => none
  | some (o0, o1) =>
    match progress with
    | some p =>
      if moveX > 0 then some (lerp o1 o0 p)
      else some (lerp o0 o1 (moveX / innerWidth * 2))
    | none => some (lerp o0 o1 (moveX / innerWidth * 2))

/-! ## Engine state machine

`EngineState` (`initX`, `moveX`, `startTime`, `rafId`) together with the
engine's DOM-facing fields, driven by the event handlers of
`BannerEngine.ts`.  `requestAnimationFrame` is modelled by a list of
pending `(handle, callback)` pairs plus a fresh-handle counter (the
browser hands out positive handles); `cancelAnimationFrame h` removes the
pending entry with handle `h`.  A `Ev.frame t` event is the host firing
the earliest pending frame callback at timestamp `t`; when nothing is
pending it is a no-op. -/

/-- Which callback a pending animation frame will run: the live-tracking
closure `() => this._animate()` or the homing loop `this._resetPosition`. -/
inductive FrameKind where
  | track : FrameKind
  | homing : FrameKind
deriving DecidableEq, Repr

/-- The `style.transform` currently written on a layer's DOM node:
either the precomputed base matrix (set at render time) or a full
`_animate` output. -/
inductive LayerStyle where
  | base : Mat → LayerStyle
  | anim : FinalTransform → LayerStyle
deriving DecidableEq, Repr

/-- Environment of the engine: the abstract `DEG2RAD` constant, the
window width, and the `EngineConfig` fields (`duration = 300`,
`baseWidth = 1650` in the source). -/
structure Env where
  deg2rad : ℚ
  innerWidth : ℚ
  duration : ℚ
  baseWidth : ℚ
deriving DecidableEq, Repr

/-- The engine's mutable state: `EngineState` (`initX`, `moveX`,
`startTime`, `rafId`), the scheduler model (`pending`, `nextId`), and the
DOM-facing fields (`simpleVideoMode`, `compensate`, `allLayersData`,
whether `this.layers` is non-null, and the per-layer styles last written
to the DOM). -/
structure Engine where
  initX : ℚ
  moveX : ℚ
  startTime : ℚ
  rafId : ℕ
  pending : List (ℕ × FrameKind)
  nextId : ℕ
  simpleVideoMode : Bool
  compensate : ℚ
  layersData : List ProcessedLayer
  hasLayers : Bool
  layerStyles : List LayerStyle
  layerOpacities : List (Option ℚ)
deriving DecidableEq, Repr

/-- The engine state right after construction. -/
def initEngine : Engine :=
  { initX := 0, moveX := 0, startTime := 0, rafId := 0
    pending := [], nextId := 1
    simpleVideoMode := false, compensate := 1
    layersData := [], hasLayers := false
    layerStyles := [], layerOpacities := [] }

/-- `_stopAnimation`: when `rafId` is nonzero, cancel that frame and zero
the handle. -/
def stopAnimation (e : Engine) : Engine :=
  if e.rafId = 0 then e
  else
    { e with
      rafId := 0
      pending := e.pending.filter (fun p => p.1 ≠ e.rafId) }

/-- `requestAnimationFrame(cb)` followed by `this.state.rafId = handle`:
append a fresh pending entry and record its handle. -/
def schedule (k : FrameKind) (e : Engine) : Engine :=
  { e with
    rafId := e.nextId
    pending := e.pending ++ [(e.nextId, k)]
    nextId := e.nextId + 1 }

/-- `_animate(progress?)` at the engine level: guarded by
`!this.layers || this.layers.length <= 0`, it rewrites every layer's
`style.transform` (and `style.opacity` for layers with an opacity range)
from `allLayersData` and the current `moveX`. -/
def engineAnimate (env : Env) (progress : Option ℚ) (e : Engine) : Engine :=
  if e.hasLayers = false ∨ e.layerStyles.length = 0 then e
  else
    { e with
      layerStyles :=
        e.layersData.map
          (fun it => LayerStyle.anim (animateLayerTransform env.deg2rad e.moveX progress it))
      layerOpacities :=
        List.zipWith
          (fun it old =>
            match animateLayerOpacity env.innerWidth e.moveX progress it with
            | some v => some v
            | none => old)
          e.layersData e.layerOpacities }

/-- `_resetPosition(timestamp)`: set the homing clock on the first frame,
derive the eased progress, apply `_animate(easeProgress)`, and either
reschedule itself (`progress < 1`) or finish by zeroing `rafId` and
`moveX`. -/
def resetPositionStep (env : Env) (e : Engine) (t : ℚ) : Engine :=
  let st := if e.startTime = 0 then t else e.startTime
  let elapsed := t - st
  let progress := min (elapsed / env.duration) 1
  let easeProgress := easeOutQuart progress
  let e1 := engineAnimate env (some easeProgress) { e with startTime := st }
  if progress < 1 then schedule FrameKind.homing e1
  else { e1 with rafId := 0, moveX := 0 }

/-- Events driving the engine: the bound handlers
(`mouseenter`, `mousemove`, `mouseleave`/window `blur`), the host firing a
pending animation frame at a timestamp, the two `updateData` variants, and
`destroy`. -/
inductive Ev where
  | enter : ℚ → Ev
  | move : ℚ → Ev
  | leave : Ev
  | frame : ℚ → Ev
  | updateParallax : List RawLayer → Ev
  | updateSimple : Ev
  | destroyCall : Ev
deriving DecidableEq, Repr

/-- One engine transition per event, straight from the handlers in
`BannerEngine.ts`.  `updateParallax` covers the `"parallax"` branch of
`updateData` (compensation, `_initParallaxData`, `_renderParallax`
writing base transforms and initial opacities); `updateSimple` covers the
`"simple-video"` branch; `destroyCall` covers `destroy()`. -/
def step (env : Env) (e : Engine) : Ev → Engine
  | Ev.enter x =>
    if e.simpleVideoMode then e else { e with initX := x }
  | Ev.move x =>
    if e.simpleVideoMode then e
    else schedule FrameKind.track (stopAnimation { e with moveX := x - e.initX })
  | Ev.leave =>
    if e.simpleVideoMode then e
    else schedule FrameKind.homing (stopAnimation { e with startTime := 0 })
  | Ev.frame t =>
    match e.pending with
    | [] => e
    | (_, k) :: rest =>
      let e1 := { e with pending := rest }
      match k with
      | FrameKind.track => engineAnimate env none e1
      | FrameKind.homing => resetPositionStep env e1 t
  | Ev.updateParallax payload =>
    let e1 := stopAnimation e
    let comp := calcCompensate env.innerWidth env.baseWidth
    let ld := payload.map (initLayer comp)
    { e1 with
      simpleVideoMode := false
      compensate := comp
      layersData := ld
      hasLayers := true
      layerStyles := ld.map (fun it => LayerStyle.base it.baseTransform)
      layerOpacities := ld.map (fun it => it.opacity.map Prod.fst) }
  | Ev.updateSimple =>
    let e1 := stopAnimation e
    { e1 with
      simpleVideoMode := true
      layersData := []
      hasLayers := false
      layerStyles := []
      layerOpacities := [] }
  | Ev.destroyCall =>
    let e1 := stopAnimation e
    { e1 with
      layersData := []
      hasLayers := false
      layerStyles := []
      layerOpacities := [] }

/-- Run the engine over a list of events. -/
def run (env : Env) (e : Engine) : List Ev → Engine
  | [] => e
  | ev :: evs => run env (step env e ev) evs

/-! ## Particle system

`ParticleSystem.ts`.  The random source is injected (spec §9): `rand`
takes the value `r` of `Math.random()`, which lies in `[0, 1)`, as an
explicit argument.  Per-particle motion is `tickParticle`; the
lifecycle (`start`/preload/`dispose`/frame loop) is `stepPS`, which
tracks the particle count (`_initParticles` fills the array to
`config.count`, `dispose` empties it) and the scheduled frames. -/

/-- One particle (`Particle` in `ParticleSystem.ts`); the image reference
is kept only through its derived pixel `width`/`height`. -/
structure Particle where
  x : ℚ
  y : ℚ
  speed : ℚ
  drift : ℚ
  rotation : ℚ
  rotationSpeed : ℚ
  width : ℚ
  height : ℚ
deriving DecidableEq, Repr

/-- `rand(min, max) = min + Math.random() * (max - min)`, with the
`Math.random()` draw `r ∈ [0, 1)` injected. -/
def rand (lo hi r : ℚ) : ℚ :=
  lo + r * (hi - lo)

/-- The per-particle body of `_tick`: advance `y`, `x`, `rotation`;
recycle below the bottom edge (`y > height + p.height`) to
`y = -p.height`, `x = rand(0, width)`; then wrap horizontally. -/
def tickParticle (width height : ℚ) (r : ℚ) (p : Particle) : Particle :=
  let y1 := p.y + p.speed
  let x1 := p.x + p.drift
  let rot1 := p.rotation + p.rotationSpeed
  let recycled := y1 > height + p.height
  let y2 := if recycled then -p.height else y1
  let x2 := if recycled then rand 0 width r else x1
  let x3 :=
    if x2 > width + p.width then -p.width
    else if x2 < -p.width then width
    else x2
  { p with x := x3, y := y2, rotation := rot1 }

/-- Lifecycle state of a `ParticleSystem`: the `disposed` flag, the
scheduler handle and pending-frame model (as for the engine), the size of
the `particles` and `images` arrays, and the configured `count`. -/
structure PSys where
  disposed : Bool
  rafId : ℕ
  nextId : ℕ
  particles : ℕ
  images : ℕ
  cfgCount : ℕ
  pendingFrames : List ℕ
deriving DecidableEq, Repr

/-- Lifecycle events: the image preload resolving (with the number of
loaded images), the host firing a scheduled frame, and `dispose()`. -/
inductive PEv where
  | preloadResolve : ℕ → PEv
  | frameFire : PEv
  | disposeCall : PEv
deriving DecidableEq, Repr

/-- `requestAnimationFrame(this._tick)` at the end of the tick body. -/
def psSchedule (s : PSys) : PSys :=
  { s with
    rafId := s.nextId
    pendingFrames := s.pendingFrames ++ [s.nextId]
    nextId := s.nextId + 1 }

/-- The `_tick` callback: return immediately on the `disposed` flag,
otherwise run the body (update/draw every particle, then reschedule).
The boolean records whether the body past the guard ran. -/
def psTick (s : PSys) : PSys × Bool :=
  if s.disposed then (s, false) else (psSchedule s, true)

/-- One lifecycle transition.  `preloadResolve n` is the resumption of
`start()` after `await this._loadImages()`: the images array is assigned
by the `await`, then the disposed flag is re-checked before
`_initParticles()` and the synchronous first `_tick()`.  `frameFire` is
the host invoking a scheduled `_tick` (removing it from the pending set
first).  `disposeCall` sets the flag, cancels the scheduled frame and
drops the particle and image arrays. -/
def stepPS (s : PSys) : PEv → PSys × Bool
  | PEv.preloadResolve n =>
    let s1 := { s with images := n }
    if s1.disposed then (s1, false)
    else psTick { s1 with particles := s1.cfgCount }
  | PEv.frameFire =>
    match s.pendingFrames with
    | [] => (s, false)
    | _ :: rest => psTick { s with pendingFrames := rest }
  | PEv.disposeCall =>
    let s1 := { s with disposed := true }
    let s2 :=
      if s1.rafId = 0 then s1
      else
        { s1 with
          rafId := 0
          pendingFrames := s1.pendingFrames.filter (fun h => h ≠ s1.rafId) }
    ({ s2 with particles := 0, images := 0 }, false)

/-- Run the particle lifecycle over a list of events, counting how many
times the `_tick` body (past the disposed guard) executed. -/
def runPS (s : PSys) : List PEv → PSys × ℕ
  | [] => (s, 0)
  | ev :: evs =>
    let r1 := stepPS s ev
    let r2 := runPS r1.1 evs
    (r2.1, (if r1.2 then 1 else 0) + r2.2)

/-! ## Auxiliary predicates and concrete fixtures -/

/-- Scheduler invariant of the engine: handles are positive, at most one
frame is pending, every pending entry carries the recorded `rafId`, and a
zero `rafId` means nothing is pending. -/
def SchedInv (e : Engine) : Prop :=
  0 < e.nextId ∧
  e.pending.length ≤ 1 ∧
  (∀ p ∈ e.pending, p.1 = e.rafId) ∧
  (e.rafId = 0 → e.pending = [])

/-- The particle system's at-rest-after-dispose shape: flag set, particle
array empty, no recorded frame handle. -/
def PsDisposedRest (s : PSys) : Prop :=
  s.disposed = true ∧ s.particles = 0 ∧ s.rafId = 0

/-- Modelled from the spec (`clamp(pointerOffset / viewportWidth * 2)`):
the clamp-to-`[0,1]` the spec's opacity formula applies; the source
(`_animate`, `BannerEngine.ts`) has no such clamp. -/
def specClamp (x : ℚ) : ℚ :=
  max 0 (min 1 x)

/-- Modelled from the spec: the non-homing opacity as the spec states it,
`lerp(opacityRange[0], opacityRange[1], clamp(pointerOffset / viewportWidth * 2))`. -/
def specOpacityClaim (o0 o1 innerWidth moveX : ℚ) : ℚ :=
  lerp o0 o1 (specClamp (moveX / innerWidth * 2))

/-- The scenario layer of claim C1: `accel = 0.05`,
`transform = [1,0,0,1,100,50]`, no gravity/scale/rotation/opacity. -/
def rawLayerC1 : RawLayer :=
  ⟨⟨1, 0, 0, 1, 100, 50⟩, 1/20, none, none, none, none⟩

/-- The scenario layer of claim C3: `opacityRange = [0.2, 0.8]`. -/
def layerC3 : ProcessedLayer :=
  initLayer 1 ⟨⟨1, 0, 0, 1, 0, 0⟩, 0, none, none, none, some (1/5, 4/5)⟩

/-- A counterexample particle for claim C7: height 1, width 0, about to
fall past the bottom of a zero-width canvas. -/
def particleC7 : Particle :=
  ⟨0, 10, 5, 0, 0, 0, 0, 1⟩

/-- A concrete environment: `DEG2RAD` stand-in 1, window width 1000, the
source's `duration = 300` and `baseWidth = 1650`. -/
def env0 : Env :=
  ⟨1, 1000, 300, 1650⟩

/-- A concrete mid-homing engine state used to witness claim C2: one
layer, homing clock at 100, `pointerOffset = 50`, homing frame 3
pending. -/
def engineC2 : Engine :=
  { initX := 20, moveX := 50, startTime := 100, rafId := 3
    pending := [(3, FrameKind.homing)], nextId := 4
    simpleVideoMode := false, compensate := 1
    layersData := [initLayer 1 ⟨⟨1, 0, 0, 1, 100, 50⟩, 1/20, some 2, some 3, some 5, some (1/5, 4/5)⟩]
    hasLayers := true
    layerStyles := [LayerStyle.base ⟨1, 0, 0, 1, 100, 50⟩]
    layerOpacities := [some (1/5)] }

/-- A concrete processed layer with a rotation coefficient, used to
witness claim C10. -/
def layerC10 : ProcessedLayer :=
  initLayer 1 ⟨⟨1, 0, 0, 1, 100, 50⟩, 1/20, none, none, some 2, none⟩

/-! ## Theorems -/

/-- C1: for every layer and effective offset `m` (live or homing), the
per-frame computation sets the scale/translate matrix's horizontal
translation to `m * accel` with no clamping, its scale entries to
`scaleCoef * m + 1` when `scaleCoef` is present and `1` otherwise, its
vertical translation to `m * gravity`, composed after the compensated
base transform (with rotation third, as the `FinalTransform` structure
records); and in the scenario `accel = 0.05`,
`transform = [1,0,0,1,100,50]`, compensation 1, pointer offset 200 the
move is 10 and the composed translation `tx` is 110. -/
theorem c1_per_frame_transform :
    (∀ (deg2rad moveX : ℚ) (progress : Option ℚ) (item : ProcessedLayer),
      (animateLayerTransform deg2rad moveX progress item).base = item.baseTransform ∧
      (animateLayerTransform deg2rad moveX progress item).scaleMove.tx
        = effectiveOffset moveX progress * item.aCompensated ∧
      (animateLayerTransform deg2rad moveX progress item).scaleMove.ty
        = effectiveOffset moveX progress * item.gCompensated ∧
      (animateLayerTransform deg2rad moveX progress item).scaleMove.b = 0 ∧
      (animateLayerTransform deg2rad moveX progress item).scaleMove.c = 0 ∧
      (animateLayerTransform deg2rad moveX progress item).scaleMove.a
        = (match item.f with
           | some fv => fv * effectiveOffset moveX progress + 1
           | none => 1) ∧
      (animateLayerTransform deg2rad moveX progress item).scaleMove.d
        = (animateLayerTransform deg2rad moveX progress item).scaleMove.a) ∧
    (animateLayerTransform 1 200 none (initLayer 1 rawLayerC1)).scaleMove.tx = 10 ∧
    ((animateLayerTransform 1 200 none (initLayer 1 rawLayerC1)).base.mul
      (animateLayerTransform 1 200 none (initLayer 1 rawLayerC1)).scaleMove).tx = 110 := by
  refine ⟨?_, ?_, ?_⟩
  · intro deg2rad moveX progress item
    refine ⟨rfl, rfl, rfl, rfl, rfl, ?_, rfl⟩
    cases hf : item.f with
    | none => simp [animateLayerTransform, hf]
    | some fv =>
      by_cases h0 : fv = 0
      · simp [animateLayerTransform, hf, h0]
      · simp [animateLayerTransform, hf, h0]
  · norm_num [animateLayerTransform, initLayer, lerp, effectiveOffset, rawLayerC1]
  · norm_num [animateLayerTransform, initLayer, lerp, effectiveOffset, Mat.mul, rawLayerC1]

/-- C3 (amended): in the non-homing branch the applied opacity is the
unclamped `lerp(opacityRange[0], opacityRange[1],
pointerOffset / viewportWidth * 2)` — there is no clamp, so the value can
leave the range — and in the scenario (`[0.2, 0.8]`, width 1000, offset
250) the fraction is 0.5 and the opacity 0.5. -/
theorem c3_opacity_formula :
    (∀ (innerWidth moveX o0 o1 : ℚ) (item : ProcessedLayer),
      item.opacity = some (o0, o1) →
      animateLayerOpacity innerWidth moveX none item
        = some (lerp o0 o1 (moveX / innerWidth * 2))) ∧
    animateLayerOpacity 1000 250 none layerC3 = some (1/2) ∧
    ((250 : ℚ) / 1000 * 2 = 1/2) := by
  refine ⟨?_, ?_, by norm_num⟩
  · intro iw m o0 o1 item h
    simp [animateLayerOpacity, h]
  · norm_num [animateLayerOpacity, layerC3, initLayer, lerp]

/-- Witness for C3's amended statement: the scenario layer instantiates
the general formula. -/
theorem c3_opacity_formula_witness :
    animateLayerOpacity 1000 250 none layerC3
      = some (lerp (1/5) (4/5) ((250 : ℚ) / 1000 * 2)) :=
  c3_opacity_formula.1 1000 250 (1/5) (4/5) layerC3 rfl

/-- C3 counterexample: at pointer offset 1000 on a 1000-wide viewport the
code's unclamped lerp yields 1.4, while the claim's clamped formula
yields 0.8; in particular the opacity leaves the `[0.2, 0.8]` range. -/
theorem c3_opacity_counterexample :
    animateLayerOpacity 1000 1000 none layerC3 = some (7/5) ∧
    specOpacityClaim (1/5) (4/5) 1000 1000 = 4/5 ∧
    ¬ ((7 : ℚ)/5 ≤ 4/5) := by
  refine ⟨?_, ?_, by norm_num⟩
  · norm_num [animateLayerOpacity, layerC3, initLayer, lerp]
  · norm_num [specOpacityClaim, specClamp, lerp]

/-- C5: the compensation factor equals `max(1, w / 1650)`; recomputing
layer data multiplies only the translation components by that factor and
copies `a`, `b`, `c`, `d` and the accel/gravity coefficients; at width
1000 the factor is 1, at `2 * 1650 = 3300` it is 2 and the base
translation is exactly twice the authored translation. -/
theorem c5_compensation :
    (∀ w : ℚ, calcCompensate w 1650 = max 1 (w / 1650)) ∧
    (∀ (comp : ℚ) (item : RawLayer),
      (initLayer comp item).baseTransform.a = item.transform.a ∧
      (initLayer comp item).baseTransform.b = item.transform.b ∧
      (initLayer comp item).baseTransform.c = item.transform.c ∧
      (initLayer comp item).baseTransform.d = item.transform.d ∧
      (initLayer comp item).baseTransform.tx = item.transform.tx * comp ∧
      (initLayer comp item).baseTransform.ty = item.transform.ty * comp ∧
      (initLayer comp item).aCompensated = item.a ∧
      (initLayer comp item).gCompensated = item.g.getD 0) ∧
    calcCompensate 1000 1650 = 1 ∧
    calcCompensate 3300 1650 = 2 ∧
    (∀ item : RawLayer,
      (initLayer (calcCompensate 3300 1650) item).baseTransform.tx
        = 2 * item.transform.tx ∧
      (initLayer (calcCompensate 3300 1650) item).baseTransform.ty
        = 2 * item.transform.ty) := by
  have h2 : calcCompensate 3300 1650 = 2 := by norm_num [calcCompensate]
  refine ⟨?_, ?_, by norm_num [calcCompensate], h2, ?_⟩
  · intro w
    unfold calcCompensate
    split
    next h =>
      refine (max_eq_right ?_).symm
      rw [le_div_iff₀ (by norm_num : (0:ℚ) < 1650)]
      linarith
    next h =>
      refine (max_eq_left ?_).symm
      rw [div_le_one (by norm_num : (0:ℚ) < 1650)]
      linarith
  · intro comp item
    exact ⟨rfl, rfl, rfl, rfl, rfl, rfl, rfl, rfl⟩
  · intro item
    rw [h2]
    exact ⟨mul_comm _ _, mul_comm _ _⟩

/-- C7 (amended): when a particle's `y` after the per-frame update
exceeds `canvasHeight + height`, the same tick resets `y` to `-height`
(strictly negative for positive height) and `x` to a value in
`[0, canvasWidth)` — given additionally that the canvas width is positive
and the particle's width nonnegative (both automatic for real sprites on
a non-degenerate canvas). -/
theorem c7_particle_recycle (w h r : ℚ) (p : Particle)
    (hr0 : 0 ≤ r) (hr1 : r < 1) (hw : 0 < w) (hpw : 0 ≤ p.width)
    (hph : 0 < p.height) (hfall : p.y + p.speed > h + p.height) :
    (tickParticle w h r p).y < 0 ∧
    0 ≤ (tickParticle w h r p).x ∧ (tickParticle w h r p).x < w := by
  have hx0 : (0:ℚ) ≤ 0 + r * (w - 0) := by nlinarith
  have hx1 : 0 + r * (w - 0) < w := by nlinarith
  have hc1 : ¬ (0 + r * (w - 0) > w + p.width) := by nlinarith
  have hc2 : ¬ (0 + r * (w - 0) < -p.width) := by nlinarith
  simp only [tickParticle, rand, if_pos hfall, if_neg hc1, if_neg hc2]
  exact ⟨by linarith, hx0, hx1⟩

/-- Witness for C7's amended statement at a concrete recycling particle
on a 100-wide canvas. -/
theorem c7_particle_recycle_witness :
    (tickParticle 100 0 (1/2) particleC7).y < 0 ∧
    0 ≤ (tickParticle 100 0 (1/2) particleC7).x ∧
    (tickParticle 100 0 (1/2) particleC7).x < 100 :=
  c7_particle_recycle 100 0 (1/2) particleC7 (by norm_num) (by norm_num)
    (by norm_num) (by norm_num [particleC7]) (by norm_num [particleC7])
    (by norm_num [particleC7])

/-- C7 counterexample: on a zero-width canvas the recycled particle's `x`
is 0, which is not in the empty interval `[0, 0)`, so the claim as
stated (with no positivity assumption on the canvas width) fails. -/
theorem c7_counterexample :
    particleC7.y + particleC7.speed > 0 + particleC7.height ∧
    0 < particleC7.height ∧
    ¬ ((tickParticle 0 0 (1/2) particleC7).x < 0) := by
  norm_num [particleC7, tickParticle, rand]

/-- C9: `destroy()` is idempotent on the engine state — a second call
leaves the state of the first call unchanged (the model is a total
function, so neither call can throw) — and after it no frame handle is
recorded. -/
theorem c9_destroy_idempotent (env : Env) (e : Engine) :
    step env (step env e Ev.destroyCall) Ev.destroyCall
      = step env e Ev.destroyCall ∧
    (step env e Ev.destroyCall).rafId = 0 := by
  constructor
  · unfold step stopAnimation
    by_cases h : e.rafId = 0 <;> simp [h]
  · unfold step stopAnimation
    by_cases h : e.rafId = 0 <;> simp [h]

/-- C10: during homing, the independently interpolated rotation
`lerp(rotationCoef * v, 0, p)` equals `rotationCoef * m` for the same
interpolated offset `m = lerp(v, 0, p)` used by move and scale — an
exact arithmetic identity. -/
theorem c10_homing_rotation (deg2rad moveX p dv : ℚ) (item : ProcessedLayer)
    (hdeg : item.deg = some dv) (hnz : dv ≠ 0) :
    (animateLayerTransform deg2rad moveX (some p) item).rot
      = some (dv * effectiveOffset moveX (some p) * deg2rad) ∧
    lerp (dv * moveX) 0 p = dv * lerp moveX 0 p := by
  have key : lerp (dv * moveX) 0 p = dv * lerp moveX 0 p := by
    unfold lerp; ring
  refine ⟨?_, key⟩
  simp only [animateLayerTransform, hdeg, if_neg hnz, effectiveOffset]
  rw [key]

/-- Witness for C10 at a concrete layer with `rotationCoef = 2`. -/
theorem c10_homing_rotation_witness :
    (animateLayerTransform 1 40 (some (1/4)) layerC10).rot
      = some (2 * effectiveOffset 40 (some (1/4)) * 1) ∧
    lerp (2 * 40) 0 (1/4) = 2 * lerp 40 0 (1/4) :=
  c10_homing_rotation 1 40 (1/4) 2 layerC10 rfl (by norm_num)

/-- `_stopAnimation` never touches the pointer position. -/
theorem stopAnimation_moveX (e : Engine) :
    (stopAnimation e).moveX = e.moveX := by
  unfold stopAnimation; split <;> rfl

/-- `_stopAnimation` never touches the homing clock. -/
theorem stopAnimation_startTime (e : Engine) :
    (stopAnimation e).startTime = e.startTime := by
  unfold stopAnimation; split <;> rfl

/-- `_stopAnimation` never touches the handle counter. -/
theorem stopAnimation_nextId (e : Engine) :
    (stopAnimation e).nextId = e.nextId := by
  unfold stopAnimation; split <;> rfl

/-- Under the scheduler invariant, `_stopAnimation` leaves no pending
frame and a zero handle. -/
theorem stopAnimation_clears (e : Engine) (hinv : SchedInv e) :
    (stopAnimation e).rafId = 0 ∧ (stopAnimation e).pending = [] := by
  obtain ⟨-, -, hall, hzero⟩ := hinv
  unfold stopAnimation
  by_cases h : e.rafId = 0
  · simp [h, hzero h]
  · refine ⟨by simp [h], ?_⟩
    simp only [h, if_false]
    rw [List.filter_eq_nil_iff]
    intro a ha
    simp [hall a ha]

/-- `_animate` leaves the frame handle unchanged. -/
theorem engineAnimate_rafId (env : Env) (pr : Option ℚ) (e : Engine) :
    (engineAnimate env pr e).rafId = e.rafId := by
  unfold engineAnimate; split <;> rfl

/-- `_animate` schedules nothing. -/
theorem engineAnimate_pending (env : Env) (pr : Option ℚ) (e : Engine) :
    (engineAnimate env pr e).pending = e.pending := by
  unfold engineAnimate; split <;> rfl

/-- `_animate` allocates no handle. -/
theorem engineAnimate_nextId (env : Env) (pr : Option ℚ) (e : Engine) :
    (engineAnimate env pr e).nextId = e.nextId := by
  unfold engineAnimate; split <;> rfl

/-- `_animate` does not change the pointer offset. -/
theorem engineAnimate_moveX (env : Env) (pr : Option ℚ) (e : Engine) :
    (engineAnimate env pr e).moveX = e.moveX := by
  unfold engineAnimate; split <;> rfl

/-- `_animate` does not change the homing clock. -/
theorem engineAnimate_startTime (env : Env) (pr : Option ℚ) (e : Engine) :
    (engineAnimate env pr e).startTime = e.startTime := by
  unfold engineAnimate; split <;> rfl

/-- `_animate` does not change the layer data. -/
theorem engineAnimate_layersData (env : Env) (pr : Option ℚ) (e : Engine) :
    (engineAnimate env pr e).layersData = e.layersData := by
  unfold engineAnimate; split <;> rfl

/-- Scheduling into an empty pending set restores the scheduler
invariant. -/
theorem schedule_inv (k : FrameKind) (e : Engine)
    (hnext : 0 < e.nextId) (hpend : e.pending = []) :
    SchedInv (schedule k e) := by
  refine ⟨by simp [schedule], by simp [schedule, hpend], ?_, ?_⟩
  · intro p hp
    simp [schedule, hpend] at hp
    simp [schedule, hp]
  · intro h
    simp [schedule] at h
    omega

/-- A homing frame restores the scheduler invariant when it starts from
an empty pending set. -/
theorem resetPositionStep_inv (env : Env) (e : Engine) (t : ℚ)
    (hnext : 0 < e.nextId) (hpend : e.pending = []) :
    SchedInv (resetPositionStep env e t) := by
  simp only [resetPositionStep]
  generalize (if e.startTime = 0 then t else e.startTime) = st
  split
  · apply schedule_inv
    · rw [engineAnimate_nextId]; exact hnext
    · rw [engineAnimate_pending]; exact hpend
  · refine ⟨?_, ?_, ?_, ?_⟩
    · show 0 < (engineAnimate _ _ _).nextId
      rw [engineAnimate_nextId]; exact hnext
    · show ((engineAnimate _ _ _).pending).length ≤ 1
      rw [engineAnimate_pending]; simp [hpend]
    · intro p hp
      simp only [engineAnimate_pending] at hp
      simp [hpend] at hp
    · intro _
      show (engineAnimate _ _ _).pending = []
      rw [engineAnimate_pending]; exact hpend

/-- Every engine event preserves the scheduler invariant. -/
theorem step_inv (env : Env) (e : Engine) (ev : Ev) (hinv : SchedInv e) :
    SchedInv (step env e ev) := by
  obtain ⟨hnext, hlen, hall, hzero⟩ := hinv
  cases ev with
  | enter x =>
    simp only [step]
    by_cases hsv : e.simpleVideoMode = true
    · rw [if_pos hsv]; exact ⟨hnext, hlen, hall, hzero⟩
    · rw [if_neg hsv]; exact ⟨hnext, hlen, hall, hzero⟩
  | move x =>
    simp only [step]
    by_cases hsv : e.simpleVideoMode = true
    · rw [if_pos hsv]; exact ⟨hnext, hlen, hall, hzero⟩
    · rw [if_neg hsv]
      have hs := stopAnimation_clears { e with moveX := x - e.initX }
        ⟨hnext, hlen, hall, hzero⟩
      exact schedule_inv _ _ (by rw [stopAnimation_nextId]; exact hnext) hs.2
  | leave =>
    simp only [step]
    by_cases hsv : e.simpleVideoMode = true
    · rw [if_pos hsv]; exact ⟨hnext, hlen, hall, hzero⟩
    · rw [if_neg hsv]
      have hs := stopAnimation_clears { e with startTime := 0 }
        ⟨hnext, hlen, hall, hzero⟩
      exact schedule_inv _ _ (by rw [stopAnimation_nextId]; exact hnext) hs.2
  | frame t =>
    simp only [step]
    cases hpend : e.pending with
    | nil => exact ⟨hnext, by simp [hpend], by simp [hpend], fun _ => hpend⟩
    | cons hd rest =>
      have hrest : rest = [] := by
        have := hlen
        rw [hpend] at this
        simpa using this
      subst hrest
      obtain ⟨hd1, hd2⟩ := hd
      cases hd2 with
      | track =>
        refine ⟨?_, ?_, ?_, ?_⟩
        · rw [engineAnimate_nextId]; exact hnext
        · rw [engineAnimate_pending]; simp
        · intro p hp
          rw [engineAnimate_pending] at hp
          simp at hp
        · intro _
          rw [engineAnimate_pending]
      | homing =>
        exact resetPositionStep_inv env { e with pending := [] } t hnext rfl
  | updateParallax payload =>
    have hs := stopAnimation_clears e ⟨hnext, hlen, hall, hzero⟩
    simp only [step]
    refine ⟨?_, ?_, ?_, ?_⟩
    · show 0 < (stopAnimation e).nextId
      rw [stopAnimation_nextId]; exact hnext
    · show ((stopAnimation e).pending).length ≤ 1
      rw [hs.2]; simp
    · intro p hp
      simp only [hs.2] at hp
      simp at hp
    · intro _
      exact hs.2
  | updateSimple =>
    have hs := stopAnimation_clears e ⟨hnext, hlen, hall, hzero⟩
    simp only [step]
    refine ⟨?_, ?_, ?_, ?_⟩
    · show 0 < (stopAnimation e).nextId
      rw [stopAnimation_nextId]; exact hnext
    · show ((stopAnimation e).pending).length ≤ 1
      rw [hs.2]; simp
    · intro p hp
      simp only [hs.2] at hp
      simp at hp
    · intro _
      exact hs.2
  | destroyCall =>
    have hs := stopAnimation_clears e ⟨hnext, hlen, hall, hzero⟩
    simp only [step]
    refine ⟨?_, ?_, ?_, ?_⟩
    · show 0 < (stopAnimation e).nextId
      rw [stopAnimation_nextId]; exact hnext
    · show ((stopAnimation e).pending).length ≤ 1
      rw [hs.2]; simp
    · intro p hp
      simp only [hs.2] at hp
      simp at hp
    · intro _
      exact hs.2

/-- The scheduler invariant holds along every run from the initial
state. -/
theorem run_inv (env : Env) (evs : List Ev) (e : Engine) (hinv : SchedInv e) :
    SchedInv (run env e evs) := by
  induction evs generalizing e with
  | nil => exact hinv
  | cons ev evs ih => exact ih _ (step_inv env e ev hinv)

/-- The freshly constructed engine satisfies the scheduler invariant. -/
theorem initEngine_inv : SchedInv initEngine :=
  ⟨by norm_num [initEngine], by simp [initEngine], by simp [initEngine],
    fun _ => rfl⟩

/-- C6: along every sequence of pointer, frame, update and destroy
events starting from a fresh engine, at most one animation-frame request
is pending at any time. -/
theorem c6_at_most_one_pending (env : Env) (evs : List Ev) :
    (run env initEngine evs).pending.length ≤ 1 :=
  (run_inv env evs initEngine initEngine_inv).2.1

/-- C4 (amended): in every reachable engine state, `updateData` — in
both of its variants, the `"parallax"` branch and the `"simple-video"`
branch — cancels the in-flight animation frame: the recorded handle
becomes 0 and nothing stays pending; but it leaves the pointer offset
(`moveX`) and the homing start timestamp unchanged rather than resetting
them to 0. -/
theorem c4_update_cancels_frame_only (env : Env) (evs : List Ev)
    (payload : List RawLayer) :
    ((step env (run env initEngine evs) (Ev.updateParallax payload)).rafId = 0 ∧
     (step env (run env initEngine evs) (Ev.updateParallax payload)).pending = [] ∧
     (step env (run env initEngine evs) (Ev.updateParallax payload)).moveX
       = (run env initEngine evs).moveX ∧
     (step env (run env initEngine evs) (Ev.updateParallax payload)).startTime
       = (run env initEngine evs).startTime) ∧
    ((step env (run env initEngine evs) Ev.updateSimple).rafId = 0 ∧
     (step env (run env initEngine evs) Ev.updateSimple).pending = [] ∧
     (step env (run env initEngine evs) Ev.updateSimple).moveX
       = (run env initEngine evs).moveX ∧
     (step env (run env initEngine evs) Ev.updateSimple).startTime
       = (run env initEngine evs).startTime) := by
  have hinv := run_inv env evs initEngine initEngine_inv
  have hs := stopAnimation_clears (run env initEngine evs) hinv
  constructor <;>
    · simp only [step]
      exact ⟨hs.1, hs.2, stopAnimation_moveX _, stopAnimation_startTime _⟩

/-- C4 counterexample: enter at 0, move to 5, then `updateData`; the
pointer offset stays 5 instead of being reset to 0 as claimed. -/
theorem c4_counterexample :
    (step env0 (run env0 initEngine [Ev.enter 0, Ev.move 5])
      (Ev.updateParallax [])).moveX = 5 ∧
    ¬ ((step env0 (run env0 initEngine [Ev.enter 0, Ev.move 5])
      (Ev.updateParallax [])).moveX = 0) := by
  norm_num [run, step, initEngine, stopAnimation, schedule, env0]

/-- Pairs of a mapped list zipped with the original list are pointwise
`(f a, a)`. -/
theorem mem_zip_map_fst {α β : Type} (f : α → β) (l : List α) :
    ∀ pr ∈ (l.map f).zip l, pr.1 = f pr.2 := by
  induction l with
  | nil => intro pr hpr; simp at hpr
  | cons a l ih =>
    intro pr hpr
    simp only [List.map_cons, List.zip_cons_cons, List.mem_cons] at hpr
    rcases hpr with h | h
    · subst h; rfl
    · exact ih pr h

/-- When layers are present, every style `_animate` writes is the
animate output of the corresponding layer data. -/
theorem engineAnimate_styles (env : Env) (pr : Option ℚ) (e : Engine)
    (hl : e.hasLayers = true) :
    ∀ q ∈ (engineAnimate env pr e).layerStyles.zip
        (engineAnimate env pr e).layersData,
      q.1 = LayerStyle.anim (animateLayerTransform env.deg2rad e.moveX pr q.2) := by
  unfold engineAnimate
  by_cases hlen : e.layerStyles.length = 0
  · rw [if_pos (Or.inr hlen)]
    have hnil : e.layerStyles = [] := List.length_eq_zero.mp hlen
    intro q hq
    rw [hnil] at hq
    simp at hq
  · have hguard : ¬ (e.hasLayers = false ∨ e.layerStyles.length = 0) := by
      simp [hl, hlen]
    rw [if_neg hguard]
    intro q hq
    exact mem_zip_map_fst _ _ q hq

/-- At eased progress 1 the homing transform of any layer equals the
live-tracking transform at offset 0: the rest pose. -/
theorem animateLayerTransform_complete (deg2rad moveX : ℚ)
    (item : ProcessedLayer) :
    animateLayerTransform deg2rad moveX (some 1) item
      = animateLayerTransform deg2rad 0 none item := by
  have hoff : effectiveOffset moveX (some 1) = effectiveOffset 0 none := by
    simp [effectiveOffset, lerp]
  cases hdeg : item.deg with
  | none => simp [animateLayerTransform, hdeg, hoff]
  | some dv =>
    by_cases h : dv = 0
    · simp [animateLayerTransform, hdeg, hoff, h]
    · simp [animateLayerTransform, hdeg, hoff, h, lerp]

/-- C2: a homing frame whose elapsed time reaches the configured
duration computes eased progress 1, leaves every layer's written
transform equal to the transform computed at effective offset 0, resets
the pointer offset to 0 and leaves no frame handle recorded. -/
theorem c2_homing_completion (env : Env) (e : Engine) (t : ℚ)
    (hl : e.hasLayers = true) (hst : e.startTime ≠ 0)
    (hd : 0 < env.duration) (hel : env.duration ≤ t - e.startTime) :
    (resetPositionStep env e t).moveX = 0 ∧
    (resetPositionStep env e t).rafId = 0 ∧
    ∀ q ∈ (resetPositionStep env e t).layerStyles.zip
        (resetPositionStep env e t).layersData,
      q.1 = LayerStyle.anim (animateLayerTransform env.deg2rad 0 none q.2) := by
  have hstif : (if e.startTime = 0 then t else e.startTime) = e.startTime :=
    if_neg hst
  have hprog : min ((t - e.startTime) / env.duration) 1 = 1 := by
    apply min_eq_right
    rw [le_div_iff₀ hd]
    linarith
  have hease : easeOutQuart 1 = 1 := by norm_num [easeOutQuart]
  have hg : resetPositionStep env e t
      = { engineAnimate env (some 1) { e with startTime := e.startTime } with
          rafId := 0, moveX := 0 } := by
    simp only [resetPositionStep, hstif, hprog, hease]
    rw [if_neg (lt_irrefl (1 : ℚ))]
  rw [hg]
  refine ⟨rfl, rfl, ?_⟩
  intro q hq
  have h2 := engineAnimate_styles env (some 1)
    { e with startTime := e.startTime } hl q hq
  rw [animateLayerTransform_complete] at h2
  exact h2

/-- Witness for C2 at a concrete mid-homing engine, completing at
timestamp 400 after starting at 100 with duration 300. -/
theorem c2_homing_completion_witness :
    (resetPositionStep env0 engineC2 400).moveX = 0 ∧
    (resetPositionStep env0 engineC2 400).rafId = 0 ∧
    ∀ q ∈ (resetPositionStep env0 engineC2 400).layerStyles.zip
        (resetPositionStep env0 engineC2 400).layersData,
      q.1 = LayerStyle.anim (animateLayerTransform env0.deg2rad 0 none q.2) :=
  c2_homing_completion env0 engineC2 400 rfl (by norm_num [engineC2])
    (by norm_num [env0]) (by norm_num [env0, engineC2])

/-- One event from a disposed-at-rest particle state: still disposed at
rest, the tick body did not run, and the pending set only drains. -/
theorem stepPS_disposed (s : PSys) (ev : PEv) (h : PsDisposedRest s) :
    PsDisposedRest (stepPS s ev).1 ∧ (stepPS s ev).2 = false ∧
    List.Sublist (stepPS s ev).1.pendingFrames s.pendingFrames := by
  obtain ⟨hdis, hpart, hraf⟩ := h
  cases ev with
  | preloadResolve n =>
    simp only [stepPS]
    rw [if_pos (by simpa using hdis)]
    exact ⟨⟨hdis, hpart, hraf⟩, rfl, List.Sublist.refl _⟩
  | frameFire =>
    simp only [stepPS]
    cases hpend : s.pendingFrames with
    | nil =>
      exact ⟨⟨hdis, hpart, hraf⟩, rfl, by rw [hpend]⟩
    | cons hd rest =>
      simp only [psTick]
      rw [if_pos (by simpa using hdis)]
      refine ⟨⟨hdis, hpart, hraf⟩, rfl, ?_⟩
      exact List.sublist_cons_self hd rest
  | disposeCall =>
    simp only [stepPS]
    rw [if_pos hraf]
    refine ⟨⟨rfl, rfl, hraf⟩, ?_, List.Sublist.refl _⟩
    trivial

/-- Disposed-at-rest is absorbing along any event sequence: no tick body
runs, and the pending set only drains. -/
theorem runPS_disposed (s : PSys) (evs : List PEv) (h : PsDisposedRest s) :
    PsDisposedRest (runPS s evs).1 ∧ (runPS s evs).2 = 0 ∧
    List.Sublist (runPS s evs).1.pendingFrames s.pendingFrames := by
  induction evs generalizing s with
  | nil => exact ⟨h, rfl, List.Sublist.refl _⟩
  | cons ev evs ih =>
    have h1 := stepPS_disposed s ev h
    have h2 := ih (stepPS s ev).1 h1.1
    refine ⟨h2.1, ?_, h2.2.2.trans h1.2.2⟩
    simp only [runPS]
    rw [h1.2.1, h2.2.1]
    simp

/-- C8: after `dispose()` — including one landing while the image
preload is in flight — the `_tick` body never runs again: a later
preload resolution creates no particles and schedules nothing, every
fired frame returns on the disposed flag, and the state stays disposed
with no particles and no recorded handle. -/
theorem c8_dispose_halts (s0 : PSys) (evs : List PEv) :
    (runPS (stepPS s0 PEv.disposeCall).1 evs).2 = 0 ∧
    (runPS (stepPS s0 PEv.disposeCall).1 evs).1.disposed = true ∧
    (runPS (stepPS s0 PEv.disposeCall).1 evs).1.particles = 0 ∧
    (runPS (stepPS s0 PEv.disposeCall).1 evs).1.rafId = 0 ∧
    List.Sublist (runPS (stepPS s0 PEv.disposeCall).1 evs).1.pendingFrames
      (stepPS s0 PEv.disposeCall).1.pendingFrames := by
  have hd : PsDisposedRest (stepPS s0 PEv.disposeCall).1 := by
    simp only [stepPS]
    by_cases h : s0.rafId = 0 <;> simp [PsDisposedRest, h]
  have hr := runPS_disposed _ evs hd
  exact ⟨hr.2.1, hr.1.1, hr.1.2.1, hr.1.2.2, hr.2.2⟩
